import Mathlib

/-!
# Verification of the incremental data-update pipeline of `update_data.py`

Shallow embedding of the core of the wnba-predictor-app repository
(`update_data.py`): the payload parser `parse_espn_data`, the store merge
(`pd.concat` + `drop_duplicates(subset=['game_id','athlete_id_1'], keep='last')`),
the rolling-feature engine `update_features`
(`sort_values(['athlete_id_1','game_date'])`, then per athlete
`shift(1).rolling(window, min_periods=1).mean()` for each statistic and each
window in `[3, 5, 10]`), the commit step (`dropna` then write), and the
`__main__` control flow.

Modelling conventions:
* pandas `NaN` in a nullable column is `Option.none`;
* numeric statistics are exact rationals `ℚ` (box-score values are small
  decimals; none of the verified properties depends on float rounding);
* Python dict `.get` of a possibly-missing key is an `Option` field, and a
  Python expression that can raise (`int(None)`, `float(<non-numeric>)`,
  indexing `[0]` into a present-but-empty list) is modelled with
  `Except PyError`;
* dates are the raw date strings of the payload/CSV, compared
  lexicographically exactly as `sort_values` compares them, with `NaN`
  sorted last.
-/

namespace WnbaUpdate

/-- The base (non-derived) columns of one player game log, exactly the dict
built by `parse_espn_data`: `game_id`, `athlete_id_1`, `season`, `game_date`,
`points`, `rebounds`, `assists`. -/
structure Obs where
  game_id : Option String
  athlete_id_1 : Int
  season : Option Int
  game_date : Option String
  points : ℚ
  rebounds : ℚ
  assists : ℚ
deriving DecidableEq, Repr

/-- One row of the historical store dataframe `wnba_data_for_app.csv`:
the base columns plus the nine derived `avg_<stat>_last_<window>` feature
columns (windows 3, 5, 10 for each of points, rebounds, assists).
A feature value of `none` models pandas `NaN`. -/
structure Row where
  game_id : Option String
  athlete_id_1 : Int
  season : Option Int
  game_date : Option String
  points : ℚ
  rebounds : ℚ
  assists : ℚ
  avg_points_last_3 : Option ℚ
  avg_points_last_5 : Option ℚ
  avg_points_last_10 : Option ℚ
  avg_rebounds_last_3 : Option ℚ
  avg_rebounds_last_5 : Option ℚ
  avg_rebounds_last_10 : Option ℚ
  avg_assists_last_3 : Option ℚ
  avg_assists_last_5 : Option ℚ
  avg_assists_last_10 : Option ℚ
deriving DecidableEq, Repr

/-- Projection of a store row onto its base columns. -/
def baseOf (r : Row) : Obs :=
  ⟨r.game_id, r.athlete_id_1, r.season, r.game_date, r.points, r.rebounds, r.assists⟩

/-- A freshly parsed observation entering the dataframe: its feature columns
are `NaN` until `update_features` fills them (this is what
`pd.concat` does when the new frame lacks the feature columns). -/
def Obs.toRow (o : Obs) : Row :=
  ⟨o.game_id, o.athlete_id_1, o.season, o.game_date, o.points, o.rebounds, o.assists,
   none, none, none, none, none, none, none, none, none⟩

/-! ## Raw payload data model (the nested ESPN JSON, as far as the parser reads it) -/

/-- One entry of `athlete['statistics']`; `stats` is the positional stats
array, an entry being `none` when it is not convertible by `float(...)`. -/
structure StatBlock where
  stats : List (Option ℚ)
deriving DecidableEq, Repr

/-- One entry of `competitor['roster']`. `id` is `none` when
`athlete.get('id')` is missing or not convertible by `int(...)`.
`statistics` is `none` when the `statistics` key is missing (the code then
uses the default `[{}]`, whose head has no `stats`); `some []` is a
present-but-empty list, on which `[0]` raises `IndexError`. -/
structure Athlete where
  id : Option Int
  statistics : Option (List StatBlock)
deriving DecidableEq, Repr

/-- One entry of `competition['competitors']`; `id` is the (unused) team id. -/
structure Competitor where
  id : Option String
  roster : List Athlete
deriving DecidableEq, Repr

/-- One entry of `game['competitions']`. -/
structure Competition where
  date : Option String
  competitors : List Competitor
deriving DecidableEq, Repr

/-- One entry of `raw_data['events']`. `competitions` is `none` when the key
is missing (the code then uses the default `[{}]`); `some []` is a
present-but-empty list, on which `[0]` raises `IndexError`. -/
structure Game where
  id : Option String
  competitions : Option (List Competition)
deriving DecidableEq, Repr

/-- The raw scoreboard payload: `events`, and
`raw_data.get('season', {}).get('year')` flattened to one optional year. -/
structure RawPayload where
  events : List Game
  season : Option Int
deriving DecidableEq, Repr

/-- The Python exceptions `parse_espn_data` can raise (uncaught). -/
inductive PyError where
  | indexError
  | typeError
  | valueError
deriving DecidableEq, Repr

/-- `true` exactly on `Except.ok`. -/
def isOkE {α : Type} (e : Except PyError α) : Bool :=
  match e with
  | .ok _ => true
  | .error _ => false

/-! ## Payload Parser (`parse_espn_data`) -/

/-- One athlete of one game, as handled by the inner loop of
`parse_espn_data`: resolve the stats array
(`athlete.get('statistics', [{}])[0].get('stats', [])`), check
`len(stats) >= 3`, then build the game-log dict.  Building the dict
evaluates `int(athlete.get('id'))` first (raising `TypeError` on a missing
id) and then `float(stats[0..2])` (raising `ValueError` on a non-numeric
entry); a stats array shorter than 3 is silently skipped. -/
def parseAthlete (gid : Option String) (yr : Option Int) (gdate : Option String)
    (a : Athlete) : Except PyError (List Obs) :=
  match a.statistics with
  | some [] => Except.error PyError.indexError
  | none => Except.ok []
  | some (b :: _) =>
    match b.stats with
    | s0 :: s1 :: s2 :: _ =>
      match a.id with
      | none => Except.error PyError.typeError
      | some aid =>
        match s0, s1, s2 with
        | some p, some rb, some asst =>
          Except.ok [⟨gid, aid, yr, gdate, p, rb, asst⟩]
        | _, _, _ => Except.error PyError.valueError
    | _ => Except.ok []

/-- The `for athlete in competitor.get('roster', [])` loop. -/
def parseRoster (gid : Option String) (yr : Option Int) (gdate : Option String) :
    List Athlete → Except PyError (List Obs)
  | [] => Except.ok []
  | a :: rest => do
    let x ← parseAthlete gid yr gdate a
    let xs ← parseRoster gid yr gdate rest
    pure (x ++ xs)

/-- The `for competitor in competition.get('competitors', [])` loop. -/
def parseCompetitors (gid : Option String) (yr : Option Int) (gdate : Option String) :
    List Competitor → Except PyError (List Obs)
  | [] => Except.ok []
  | c :: rest => do
    let x ← parseRoster gid yr gdate c.roster
    let xs ← parseCompetitors gid yr gdate rest
    pure (x ++ xs)

/-- One iteration of the `for game in games` loop:
`competition = game.get('competitions', [{}])[0]` (an `IndexError` when the
list is present but empty; the default `[{}]` gives a competition with no
date and no competitors), then the competitor loop. -/
def parseGame (yr : Option Int) (g : Game) : Except PyError (List Obs) :=
  match g.competitions with
  | some [] => Except.error PyError.indexError
  | none => Except.ok []
  | some (c :: _) => parseCompetitors g.id yr c.date c.competitors

/-- The `for game in games` loop, accumulating `game_logs` in order. -/
def parseGames (yr : Option Int) : List Game → Except PyError (List Obs)
  | [] => Except.ok []
  | g :: rest => do
    let x ← parseGame yr g
    let xs ← parseGames yr rest
    pure (x ++ xs)

/-- `parse_espn_data(raw_data)`: flatten the payload into a list of player
game logs, or raise. -/
def parse_espn_data (raw : RawPayload) : Except PyError (List Obs) :=
  parseGames raw.season raw.events

/-! ## Store Merger (`pd.concat` + `drop_duplicates(keep='last')`) -/

/-- The dedup key `subset=['game_id', 'athlete_id_1']`. -/
def keyOf (r : Row) : Option String × Int :=
  (r.game_id, r.athlete_id_1)

/-- `drop_duplicates(subset=['game_id','athlete_id_1'], keep='last')`:
a row is kept iff no later row has the same key; kept rows stay in their
original relative order. -/
def drop_duplicates_keep_last : List Row → List Row
  | [] => []
  | r :: rs =>
    if ∃ s ∈ rs, keyOf s = keyOf r then drop_duplicates_keep_last rs
    else r :: drop_duplicates_keep_last rs

/-- `pd.concat([historical_df, new_logs_df]).drop_duplicates(subset=['game_id',
'athlete_id_1'], keep='last')`: existing rows first, then incoming, then
dedup keeping the last-seen copy per key. -/
def merge (existing incoming : List Row) : List Row :=
  drop_duplicates_keep_last (existing ++ incoming)

/-! ## Feature Engine (`update_features`) -/

/-- Lexicographic comparison of character lists by code point. -/
def charListLT : List Char → List Char → Bool
  | _, [] => false
  | [], _ :: _ => true
  | c :: cs, d :: ds =>
    if c.toNat < d.toNat then true
    else if d.toNat < c.toNat then false
    else charListLT cs ds

/-- Python string comparison: lexicographic by code point. -/
def strLT (x y : String) : Bool :=
  charListLT x.data y.data

/-- Comparison of the `game_date` column as `sort_values` orders it:
lexicographic on the date strings, `NaN` placed last. -/
def dateLE (x y : Option String) : Bool :=
  match x, y with
  | some u, some v => !(strLT v u)
  | some _, none => true
  | none, some _ => false
  | none, none => true

/-- The `sort_values(by=['athlete_id_1', 'game_date'])` key order. -/
def rowLE (r s : Row) : Bool :=
  decide (r.athlete_id_1 < s.athlete_id_1) ||
    (decide (r.athlete_id_1 = s.athlete_id_1) && dateLE r.game_date s.game_date)

/-- Insert a row into an already sorted list (stable: the inserted row goes
before later rows with an equal key). -/
def insertRow (r : Row) : List Row → List Row
  | [] => [r]
  | s :: rest => if rowLE r s then r :: s :: rest else s :: insertRow r rest

/-- `df.sort_values(by=['athlete_id_1', 'game_date'])` as a sort of the row
list. -/
def sortStore : List Row → List Row
  | [] => []
  | r :: rest => insertRow r (sortStore rest)

/-- The rows of athlete `a` strictly before position `i` of `l`, in order:
the group prefix that `shift(1)` + trailing window can see. -/
def priorsOfSameEntity (l : List Row) (i : Nat) (a : Int) : List Row :=
  (l.take i).filter (fun r => decide (r.athlete_id_1 = a))

/-- The values of one statistic over `priorsOfSameEntity`. -/
def priorStats (s : List Row) (i : Nat) (a : Int) (f : Row → ℚ) : List ℚ :=
  (priorsOfSameEntity s i a).map f

/-- `x.shift(1).rolling(window, min_periods=1).mean()` at a position whose
strict group prefix is `p`: `NaN` when there is no prior sample, otherwise
the arithmetic mean of the last `window` (or fewer) prior samples. -/
def rollMean (window : Nat) (p : List ℚ) : Option ℚ :=
  if p = [] then none
  else
    some (((p.drop (p.length - window)).sum) / ((p.drop (p.length - window)).length : ℚ))

/-- Assign all nine `avg_<stat>_last_<window>` columns of the row at
position `i` of the sorted store `s` (the assignments are independent:
each is computed from a base statistic column only). -/
def assignRow (s : List Row) (i : Nat) (r : Row) : Row :=
  { r with
    avg_points_last_3 := rollMean 3 (priorStats s i r.athlete_id_1 Row.points)
    avg_points_last_5 := rollMean 5 (priorStats s i r.athlete_id_1 Row.points)
    avg_points_last_10 := rollMean 10 (priorStats s i r.athlete_id_1 Row.points)
    avg_rebounds_last_3 := rollMean 3 (priorStats s i r.athlete_id_1 Row.rebounds)
    avg_rebounds_last_5 := rollMean 5 (priorStats s i r.athlete_id_1 Row.rebounds)
    avg_rebounds_last_10 := rollMean 10 (priorStats s i r.athlete_id_1 Row.rebounds)
    avg_assists_last_3 := rollMean 3 (priorStats s i r.athlete_id_1 Row.assists)
    avg_assists_last_5 := rollMean 5 (priorStats s i r.athlete_id_1 Row.assists)
    avg_assists_last_10 := rollMean 10 (priorStats s i r.athlete_id_1 Row.assists) }

/-- Map a function of (position, row) over a list, threading the position. -/
def mapWithIndex (f : Nat → Row → Row) : Nat → List Row → List Row
  | _, [] => []
  | k, r :: rs => f k r :: mapWithIndex f (k + 1) rs

/-- `update_features(df)`: sort by `(athlete_id_1, game_date)`, then for each
window in `[3, 5, 10]` and each statistic overwrite the feature column with
the per-athlete `shift(1).rolling(window, min_periods=1).mean()`. -/
def update_features (df : List Row) : List Row :=
  mapWithIndex (assignRow (sortStore df)) 0 (sortStore df)

/-! ## Persistence Gate (`dropna` + `to_csv`) and the `__main__` run -/

/-- A row `df.dropna()` keeps: no `NaN` in any column (the nullable columns
are `game_id`, `season`, `game_date`, and the nine feature columns). -/
def rowComplete (r : Row) : Bool :=
  r.game_id.isSome && r.season.isSome && r.game_date.isSome &&
  r.avg_points_last_3.isSome && r.avg_points_last_5.isSome &&
  r.avg_points_last_10.isSome &&
  r.avg_rebounds_last_3.isSome && r.avg_rebounds_last_5.isSome &&
  r.avg_rebounds_last_10.isSome &&
  r.avg_assists_last_3.isSome && r.avg_assists_last_5.isSome &&
  r.avg_assists_last_10.isSome

/-- `updated_df.dropna(inplace=True)`: drop every row containing a `NaN`. -/
def dropna (df : List Row) : List Row :=
  df.filter rowComplete

/-- Observable outcome of one `__main__` run: the store on disk afterwards
(`none` when no store file exists), whether `to_csv` was executed, and the
process exit code. -/
structure RunResult where
  finalStore : Option (List Row)
  wrote : Bool
  exitCode : Nat
deriving DecidableEq, Repr

/-- The `__main__` control flow of `update_data.py`.
`store` is the content of `wnba_data_for_app.csv` (`none`: the file is
missing, `pd.read_csv` raises `FileNotFoundError`, the script prints and
calls `exit()`, which exits with status 0). `fetched` is the result of
`get_game_data_for_date` (`none`: the fetch failed and returned `None`).
An exception raised by `parse_espn_data` is uncaught: the interpreter
aborts with a nonzero status before any write. -/
def runPipeline (store : Option (List Row)) (fetched : Option RawPayload) : RunResult :=
  match store with
  | none => ⟨none, false, 0⟩
  | some historical =>
    match fetched with
    | none => ⟨some historical, false, 0⟩
    | some raw =>
      if raw.events.isEmpty then ⟨some historical, false, 0⟩
      else
        match parse_espn_data raw with
        | .error _ => ⟨some historical, false, 1⟩
        | .ok logs =>
          if logs.isEmpty then ⟨some historical, false, 0⟩
          else
            ⟨some (dropna (update_features (merge historical (logs.map Obs.toRow)))),
             true, 0⟩

/-! ## Statement vocabulary -/

/-- The two rows carry the same value in all nine feature columns. -/
def sameFeatures (r s : Row) : Prop :=
  r.avg_points_last_3 = s.avg_points_last_3 ∧
  r.avg_points_last_5 = s.avg_points_last_5 ∧
  r.avg_points_last_10 = s.avg_points_last_10 ∧
  r.avg_rebounds_last_3 = s.avg_rebounds_last_3 ∧
  r.avg_rebounds_last_5 = s.avg_rebounds_last_5 ∧
  r.avg_rebounds_last_10 = s.avg_rebounds_last_10 ∧
  r.avg_assists_last_3 = s.avg_assists_last_3 ∧
  r.avg_assists_last_5 = s.avg_assists_last_5 ∧
  r.avg_assists_last_10 = s.avg_assists_last_10

/-- All nine feature columns of the row are `NaN`. -/
def allFeaturesNone (r : Row) : Prop :=
  r.avg_points_last_3 = none ∧ r.avg_points_last_5 = none ∧
  r.avg_points_last_10 = none ∧
  r.avg_rebounds_last_3 = none ∧ r.avg_rebounds_last_5 = none ∧
  r.avg_rebounds_last_10 = none ∧
  r.avg_assists_last_3 = none ∧ r.avg_assists_last_5 = none ∧
  r.avg_assists_last_10 = none

/-- All nine feature columns of the row are defined (non-`NaN`). -/
def allFeaturesSome (r : Row) : Prop :=
  r.avg_points_last_3.isSome = true ∧ r.avg_points_last_5.isSome = true ∧
  r.avg_points_last_10.isSome = true ∧
  r.avg_rebounds_last_3.isSome = true ∧ r.avg_rebounds_last_5.isSome = true ∧
  r.avg_rebounds_last_10.isSome = true ∧
  r.avg_assists_last_3.isSome = true ∧ r.avg_assists_last_5.isSome = true ∧
  r.avg_assists_last_10.isSome = true

/-- Every feature column of `r` equals the corresponding raw statistic of
`p` (the situation of an entity's second observation, `p` its first). -/
def featuresAreStatsOf (r p : Row) : Prop :=
  r.avg_points_last_3 = some p.points ∧
  r.avg_points_last_5 = some p.points ∧
  r.avg_points_last_10 = some p.points ∧
  r.avg_rebounds_last_3 = some p.rebounds ∧
  r.avg_rebounds_last_5 = some p.rebounds ∧
  r.avg_rebounds_last_10 = some p.rebounds ∧
  r.avg_assists_last_3 = some p.assists ∧
  r.avg_assists_last_5 = some p.assists ∧
  r.avg_assists_last_10 = some p.assists

/-- The last element of a list of rows, if any. -/
def lastObs : List Row → Option Row
  | [] => none
  | [r] => some r
  | _ :: r :: rs => lastObs (r :: rs)

/-- The stats array the parser resolves for an athlete (empty when the
`statistics` key is missing or its head block is the `{}` default). -/
def statsOf (a : Athlete) : List (Option ℚ)  :=
  match a.statistics with
  | none => []
  | some [] => []
  | some (b :: _) => b.stats

/-- The parser traverses this athlete without raising: either its stats
array resolves to fewer than 3 entries (skip), or the id and the first
three stats entries all convert. -/
def athleteOk (a : Athlete) : Bool :=
  match a.statistics with
  | some [] => false
  | none => true
  | some (b :: _) =>
    match b.stats with
    | s0 :: s1 :: s2 :: _ => a.id.isSome && s0.isSome && s1.isSome && s2.isSome
    | _ => true

/-- The parser traverses this competitor without raising. -/
def competitorOk (c : Competitor) : Bool :=
  c.roster.all athleteOk

/-- The parser traverses this game without raising. -/
def gameOk (g : Game) : Bool :=
  match g.competitions with
  | some [] => false
  | none => true
  | some (c :: _) => c.competitors.all competitorOk

/-- The whole payload parses without raising. -/
def parseOkPayload (raw : RawPayload) : Bool :=
  raw.events.all gameOk


/-- Rows whose key does not occur in `l₂` (the later block of a
concatenation): these are the survivors of the earlier block. -/
def freshKey (l₂ : List Row) (r : Row) : Bool :=
  decide (¬ ∃ s ∈ l₂, keyOf s = keyOf r)

/-! ## Concrete stores used by the witnesses -/

/-- Entity 618, day `a`: 10 points, 4 rebounds, 2 assists. -/
def wObs1 : Obs := ⟨some r"g1", 618, some 2023, some r"a", 10, 4, 2⟩

/-- Entity 618, day `b`: 20 points, 6 rebounds, 8 assists. -/
def wObs2 : Obs := ⟨some r"g2", 618, some 2023, some r"b", 20, 6, 8⟩

/-- Entity 618, day `b`, with different statistics than `wObs2`. -/
def wObs2x : Obs := ⟨some r"g2", 618, some 2023, some r"b", 99, 9, 9⟩

/-- Entity 618, day `c`. -/
def wObs3 : Obs := ⟨some r"g3", 618, some 2023, some r"c", 30, 2, 5⟩

def W1 : List Row := [wObs1.toRow, wObs2.toRow]

def W2 : List Row := [wObs1.toRow, wObs2x.toRow, wObs3.toRow]

def W4 : List Row := [wObs2.toRow, wObs1.toRow]


/-- An athlete record whose stats array has the three core entries but whose
`id` key is missing: `int(athlete.get('id'))` raises `TypeError`. -/
def c7BadAthlete : Athlete := ⟨none, some [⟨[some 10, some 5, some 3]⟩]⟩

/-- A payload containing one game whose single rostered athlete is
`c7BadAthlete`. -/
def c7BadPayload : RawPayload :=
  ⟨[⟨some r"401", some [⟨some r"2023-05-19", [⟨some r"14", [c7BadAthlete]⟩]⟩]⟩],
   some 2023⟩

def w7Athlete : Athlete := ⟨some 9, some [⟨[some 1, some 2, some 3, some 4]⟩]⟩

/-- A row with a null `season` but all nine features defined. -/
def c3Row : Row := ⟨some r"g1", 618, none, some r"2023-05-18", 10, 4, 2,
  some 1, some 2, some 3, some 4, some 5, some 6, some 7, some 8, some 9⟩

/-- A payload whose single rostered athlete has three stats entries but no
id, so `parse_espn_data` raises. -/
def c9BadPayload : RawPayload :=
  ⟨[⟨none, some [⟨none, [⟨none, [⟨none, some [⟨[some 1, some 2, some 3]⟩]⟩]⟩]⟩]⟩],
   none⟩

/-! ## Helper lemmas: `mapWithIndex`, sorting, `baseOf` -/

theorem mapWithIndex_length (f : Nat → Row → Row) (k : Nat) (l : List Row) :
    (mapWithIndex f k l).length = l.length := by
  induction l generalizing k with
  | nil => rfl
  | cons r rs ih => simp [mapWithIndex, ih]

theorem mapWithIndex_get (f : Nat → Row → Row) (l : List Row) (k j : Nat)
    (h2 : j < l.length) (h : j < (mapWithIndex f k l).length) :
    (mapWithIndex f k l).get ⟨j, h⟩ = f (k + j) (l.get ⟨j, h2⟩) := by
  induction l generalizing k j with
  | nil => exact absurd h2 (Nat.not_lt_zero j)
  | cons r rs ih =>
    cases j with
    | zero => simp [mapWithIndex]
    | succ j =>
      have h2s : j < rs.length := Nat.lt_of_succ_lt_succ h2
      have hs : j < (mapWithIndex f (k + 1) rs).length := by
        rw [mapWithIndex_length]; exact h2s
      have hstep : (mapWithIndex f k (r :: rs)).get ⟨j + 1, h⟩
          = (mapWithIndex f (k + 1) rs).get ⟨j, hs⟩ := rfl
      rw [hstep, ih (k + 1) j h2s hs]
      have : k + 1 + j = k + (j + 1) := by omega
      rw [this]
      rfl

theorem mapWithIndex_take (f : Nat → Row → Row) (k j : Nat) (l : List Row) :
    (mapWithIndex f k l).take j = mapWithIndex f k (l.take j) := by
  induction l generalizing k j with
  | nil => simp [mapWithIndex]
  | cons r rs ih =>
    cases j with
    | zero => rfl
    | succ j => simp [mapWithIndex, List.take_succ_cons, ih]

theorem baseOf_assignRow (s : List Row) (i : Nat) (r : Row) :
    baseOf (assignRow s i r) = baseOf r := rfl

theorem mapWithIndex_map_baseOf (s : List Row) (k : Nat) (l : List Row) :
    (mapWithIndex (assignRow s) k l).map baseOf = l.map baseOf := by
  induction l generalizing k with
  | nil => rfl
  | cons r rs ih => simp [mapWithIndex, ih, baseOf_assignRow]

theorem insertRow_perm (r : Row) (l : List Row) :
    List.Perm (insertRow r l) (r :: l) := by
  induction l with
  | nil => exact List.Perm.refl _
  | cons s rest ih =>
    by_cases h : rowLE r s = true
    · simp [insertRow, h]
    · have hstep : insertRow r (s :: rest) = s :: insertRow r rest := by
        simp [insertRow, h]
      rw [hstep]
      exact (ih.cons s).trans (List.Perm.swap r s rest)

theorem sortStore_perm (l : List Row) : List.Perm (sortStore l) l := by
  induction l with
  | nil => exact List.Perm.refl _
  | cons r rest ih =>
    exact (insertRow_perm r (sortStore rest)).trans (ih.cons r)

/-- Claim C10: `update_features` is row-preserving: the output has exactly the
rows of the input (same count, none added or removed), with every base column
(`game_id`, `athlete_id_1`, `season`, `game_date`, `points`, `rebounds`,
`assists`) unchanged row by row; only the `avg_<stat>_last_<window>` feature
columns are assigned. -/
theorem C10_update_features_frame (df : List Row) :
    (update_features df).length = df.length ∧
    List.Perm ((update_features df).map baseOf) (df.map baseOf) := by
  have hperm : List.Perm ((update_features df).map baseOf) (df.map baseOf) := by
    rw [update_features, mapWithIndex_map_baseOf]
    exact (sortStore_perm df).map baseOf
  refine ⟨?_, hperm⟩
  have := hperm.length_eq
  simpa using this

/-! ## Helper lemmas: the merge (`drop_duplicates` keep-last) -/

theorem ddl_cons_pos {r : Row} {rs : List Row} (h : ∃ s ∈ rs, keyOf s = keyOf r) :
    drop_duplicates_keep_last (r :: rs) = drop_duplicates_keep_last rs := by
  simp only [drop_duplicates_keep_last, if_pos h]

theorem ddl_cons_neg {r : Row} {rs : List Row} (h : ¬ ∃ s ∈ rs, keyOf s = keyOf r) :
    drop_duplicates_keep_last (r :: rs) = r :: drop_duplicates_keep_last rs := by
  simp only [drop_duplicates_keep_last, if_neg h]

theorem mem_of_mem_ddl {r : Row} : ∀ {l : List Row},
    r ∈ drop_duplicates_keep_last l → r ∈ l := by
  intro l
  induction l with
  | nil => simp [drop_duplicates_keep_last]
  | cons a rs ih =>
    by_cases h : ∃ s ∈ rs, keyOf s = keyOf a
    · rw [ddl_cons_pos h]
      intro hm
      exact List.mem_cons_of_mem a (ih hm)
    · rw [ddl_cons_neg h]
      intro hm
      rcases List.mem_cons.mp hm with h1 | h2
      · exact h1 ▸ List.mem_cons_self a rs
      · exact List.mem_cons_of_mem a (ih h2)


theorem ddl_append (l₁ l₂ : List Row) :
    drop_duplicates_keep_last (l₁ ++ l₂)
      = drop_duplicates_keep_last (l₁.filter (freshKey l₂))
        ++ drop_duplicates_keep_last l₂ := by
  induction l₁ with
  | nil => simp [drop_duplicates_keep_last]
  | cons r l₁ ih =>
    rw [List.cons_append]
    by_cases h2 : ∃ s ∈ l₂, keyOf s = keyOf r
    · have hc : ∃ s ∈ l₁ ++ l₂, keyOf s = keyOf r := by
        obtain ⟨s, hs, hk⟩ := h2
        exact ⟨s, List.mem_append_right l₁ hs, hk⟩
      have hf : (r :: l₁).filter (freshKey l₂) = l₁.filter (freshKey l₂) := by
        simp [List.filter_cons, freshKey, h2]
      rw [ddl_cons_pos hc, hf, ih]
    · have hfr : freshKey l₂ r = true := by simp [freshKey, h2]
      have hf : (r :: l₁).filter (freshKey l₂) = r :: l₁.filter (freshKey l₂) := by
        simp [List.filter_cons, hfr]
      by_cases h1 : ∃ s ∈ l₁, keyOf s = keyOf r
      · have hc : ∃ s ∈ l₁ ++ l₂, keyOf s = keyOf r := by
          obtain ⟨s, hs, hk⟩ := h1
          exact ⟨s, List.mem_append_left l₂ hs, hk⟩
        have hcf : ∃ s ∈ l₁.filter (freshKey l₂), keyOf s = keyOf r := by
          obtain ⟨s, hs, hk⟩ := h1
          refine ⟨s, List.mem_filter.mpr ⟨hs, ?_⟩, hk⟩
          simp only [freshKey, decide_eq_true_eq]
          intro hex
          obtain ⟨t, ht, htk⟩ := hex
          exact h2 ⟨t, ht, htk.trans hk⟩
        rw [ddl_cons_pos hc, hf, ddl_cons_pos hcf, ih]
      · have hc : ¬ ∃ s ∈ l₁ ++ l₂, keyOf s = keyOf r := by
          intro hex
          obtain ⟨s, hs, hk⟩ := hex
          rcases List.mem_append.mp hs with hmem | hmem
          · exact h1 ⟨s, hmem, hk⟩
          · exact h2 ⟨s, hmem, hk⟩
        have hcf : ¬ ∃ s ∈ l₁.filter (freshKey l₂), keyOf s = keyOf r := by
          intro hex
          obtain ⟨s, hs, hk⟩ := hex
          exact h1 ⟨s, (List.mem_filter.mp hs).1, hk⟩
        rw [ddl_cons_neg hc, hf, ddl_cons_neg hcf, ih, List.cons_append]

theorem ddl_pairwise (l : List Row) :
    (drop_duplicates_keep_last l).Pairwise (fun a b => keyOf a ≠ keyOf b) := by
  induction l with
  | nil => simp [drop_duplicates_keep_last]
  | cons r rs ih =>
    by_cases h : ∃ s ∈ rs, keyOf s = keyOf r
    · rw [ddl_cons_pos h]; exact ih
    · rw [ddl_cons_neg h]
      refine List.Pairwise.cons ?_ ih
      intro b hb hkb
      exact h ⟨b, mem_of_mem_ddl hb, hkb.symm⟩

theorem ddl_eq_self_of_pairwise : ∀ {l : List Row},
    l.Pairwise (fun a b => keyOf a ≠ keyOf b) → drop_duplicates_keep_last l = l := by
  intro l
  induction l with
  | nil => intro _; rfl
  | cons r rs ih =>
    intro hp
    have hr := List.pairwise_cons.mp hp
    have h : ¬ ∃ s ∈ rs, keyOf s = keyOf r := by
      intro hex
      obtain ⟨s, hs, hk⟩ := hex
      exact hr.1 s hs hk.symm
    rw [ddl_cons_neg h, ih hr.2]

theorem ddl_idem (l : List Row) :
    drop_duplicates_keep_last (drop_duplicates_keep_last l)
      = drop_duplicates_keep_last l :=
  ddl_eq_self_of_pairwise (ddl_pairwise l)

theorem ddl_length_le (l : List Row) :
    (drop_duplicates_keep_last l).length ≤ l.length := by
  induction l with
  | nil => exact Nat.le_refl 0
  | cons r rs ih =>
    by_cases h : ∃ s ∈ rs, keyOf s = keyOf r
    · rw [ddl_cons_pos h]
      exact Nat.le_trans ih (Nat.le_succ _)
    · rw [ddl_cons_neg h]
      exact Nat.succ_le_succ ih

theorem ddl_length_eq_iff (l : List Row) :
    (drop_duplicates_keep_last l).length = l.length ↔ (l.map keyOf).Nodup := by
  induction l with
  | nil => simp [drop_duplicates_keep_last]
  | cons r rs ih =>
    by_cases h : ∃ s ∈ rs, keyOf s = keyOf r
    · rw [ddl_cons_pos h]
      have hle := ddl_length_le rs
      constructor
      · intro he
        exfalso
        rw [List.length_cons] at he
        omega
      · intro hnd
        exfalso
        obtain ⟨s, hs, hk⟩ := h
        have : keyOf r ∈ rs.map keyOf := List.mem_map.mpr ⟨s, hs, hk⟩
        exact (List.nodup_cons.mp (by simpa using hnd)).1 this
    · rw [ddl_cons_neg h]
      have hnm : keyOf r ∉ rs.map keyOf := by
        intro hm
        rcases List.mem_map.mp hm with ⟨s, hs, hk⟩
        exact h ⟨s, hs, hk⟩
      simp only [List.length_cons, List.map_cons, List.nodup_cons]
      constructor
      · intro he
        exact ⟨hnm, ih.mp (Nat.succ_injective he)⟩
      · rintro ⟨-, hnd⟩
        rw [ih.mpr hnd]

/-- Claim C6: `merge` grows the store by at most the number of incoming
rows: `|merge existing incoming| ≤ |existing| + |incoming|`, with equality
exactly when no `(game_id, athlete_id_1)` key occurs twice across the
concatenation of existing and incoming. -/
theorem C6_merge_growth_bound (existing incoming : List Row) :
    (merge existing incoming).length ≤ existing.length + incoming.length ∧
    ((merge existing incoming).length = existing.length + incoming.length ↔
      ((existing ++ incoming).map keyOf).Nodup) := by
  constructor
  · have := ddl_length_le (existing ++ incoming)
    simpa [merge, List.length_append] using this
  · have := ddl_length_eq_iff (existing ++ incoming)
    simpa [merge, List.length_append] using this

theorem lastObs_cons_cons (a b : Row) (l : List Row) :
    lastObs (a :: b :: l) = lastObs (b :: l) := rfl

theorem ddl_filter_key (l : List Row) (k : Option String × Int) :
    (drop_duplicates_keep_last l).filter (fun r => decide (keyOf r = k))
      = Option.toList (lastObs (l.filter (fun r => decide (keyOf r = k)))) := by
  induction l with
  | nil => rfl
  | cons r rs ih =>
    by_cases hex : ∃ s ∈ rs, keyOf s = keyOf r
    · rw [ddl_cons_pos hex]
      by_cases hk : keyOf r = k
      · have hcons : (r :: rs).filter (fun r => decide (keyOf r = k))
            = r :: rs.filter (fun r => decide (keyOf r = k)) := by
          simp [List.filter_cons, hk]
        rw [ih, hcons]
        obtain ⟨s, hs, hkey⟩ := hex
        have hmem : s ∈ rs.filter (fun r => decide (keyOf r = k)) := by
          rw [List.mem_filter]
          exact ⟨hs, by simp [hkey, hk]⟩
        rcases hxs : rs.filter (fun r => decide (keyOf r = k)) with _ | ⟨b, bs⟩
        · rw [hxs] at hmem
          exact absurd hmem (List.not_mem_nil s)
        · rw [lastObs_cons_cons]
      · have hcons : (r :: rs).filter (fun r => decide (keyOf r = k))
            = rs.filter (fun r => decide (keyOf r = k)) := by
          simp [List.filter_cons, hk]
        rw [ih, hcons]
    · rw [ddl_cons_neg hex]
      by_cases hk : keyOf r = k
      · have hnil : rs.filter (fun r => decide (keyOf r = k)) = [] := by
          rw [List.filter_eq_nil_iff]
          intro s hs
          simp only [decide_eq_true_eq]
          intro hsk
          exact hex ⟨s, hs, hsk.trans hk.symm⟩
        have hddl : (drop_duplicates_keep_last rs).filter (fun r => decide (keyOf r = k))
            = [] := by
          rw [ih, hnil]; rfl
        have hstep : (r :: drop_duplicates_keep_last rs).filter
              (fun r => decide (keyOf r = k))
            = [r] := by
          simp [List.filter_cons, hk, hddl]
        have hval : (r :: rs).filter (fun r => decide (keyOf r = k)) = [r] := by
          simp [List.filter_cons, hk, hnil]
        rw [hstep, hval]
        rfl
      · have hcons : (r :: rs).filter (fun r => decide (keyOf r = k))
            = rs.filter (fun r => decide (keyOf r = k)) := by
          simp [List.filter_cons, hk]
        have hstep : (r :: drop_duplicates_keep_last rs).filter
              (fun r => decide (keyOf r = k))
            = (drop_duplicates_keep_last rs).filter (fun r => decide (keyOf r = k)) := by
          simp [List.filter_cons, hk]
        rw [hstep, ih, hcons]

/-- Claim C2: `merge` concatenates existing-then-incoming and keeps, for
every key, exactly the last-seen row with that key: the rows of the merged
store carrying key `k` are exactly the last row with key `k` of
`existing ++ incoming` (so a corrected copy supplied later in the
concatenation order is the one that survives). -/
theorem C2_merge_correction_wins (existing incoming : List Row)
    (k : Option String × Int) :
    (merge existing incoming).filter (fun r => decide (keyOf r = k))
      = Option.toList
          (lastObs ((existing ++ incoming).filter (fun r => decide (keyOf r = k)))) :=
  ddl_filter_key (existing ++ incoming) k

/-- Claim C5: merging the same incoming batch twice yields the same store
as merging it once. -/
theorem C5_merge_idempotent (existing incoming : List Row) :
    merge (merge existing incoming) incoming = merge existing incoming := by
  have hEI : drop_duplicates_keep_last (existing ++ incoming)
      = drop_duplicates_keep_last (existing.filter (freshKey incoming))
        ++ drop_duplicates_keep_last incoming := ddl_append existing incoming
  have hself : (drop_duplicates_keep_last (existing.filter (freshKey incoming))).filter
        (freshKey incoming)
      = drop_duplicates_keep_last (existing.filter (freshKey incoming)) := by
    apply List.filter_eq_self.mpr
    intro x hx
    exact List.of_mem_filter (mem_of_mem_ddl hx)
  have hnil : (drop_duplicates_keep_last incoming).filter (freshKey incoming) = [] := by
    rw [List.filter_eq_nil_iff]
    intro x hx
    simp only [freshKey, decide_eq_true_eq, not_not]
    exact ⟨x, mem_of_mem_ddl hx, rfl⟩
  calc
    merge (merge existing incoming) incoming
        = drop_duplicates_keep_last
            ((drop_duplicates_keep_last (existing ++ incoming)).filter (freshKey incoming))
          ++ drop_duplicates_keep_last incoming := by
          rw [merge, merge, ddl_append]
    _ = drop_duplicates_keep_last (drop_duplicates_keep_last
            (existing.filter (freshKey incoming)))
          ++ drop_duplicates_keep_last incoming := by
          rw [hEI, List.filter_append, hself, hnil, List.append_nil]
    _ = drop_duplicates_keep_last (existing.filter (freshKey incoming))
          ++ drop_duplicates_keep_last incoming := by
          rw [ddl_idem]
    _ = merge existing incoming := by
          rw [merge, hEI]

/-! ## Helper lemmas: the feature engine -/

theorem athlete_assignRow (s : List Row) (i : Nat) (r : Row) :
    (assignRow s i r).athlete_id_1 = r.athlete_id_1 := rfl

theorem update_features_length (df : List Row) :
    (update_features df).length = (sortStore df).length := by
  rw [update_features, mapWithIndex_length]

theorem update_features_get (df : List Row) (i : Nat)
    (h2 : i < (sortStore df).length) (h : i < (update_features df).length) :
    (update_features df).get ⟨i, h⟩
      = assignRow (sortStore df) i ((sortStore df).get ⟨i, h2⟩) := by
  have hb : i < (mapWithIndex (assignRow (sortStore df)) 0 (sortStore df)).length := by
    rw [mapWithIndex_length]; exact h2
  have := mapWithIndex_get (assignRow (sortStore df)) (sortStore df) 0 i h2 hb
  simpa [update_features] using this

theorem mapWithIndex_filter_athlete_map_baseOf (s : List Row) (a : Int) :
    ∀ (k : Nat) (l : List Row),
    ((mapWithIndex (assignRow s) k l).filter
        (fun r => decide (r.athlete_id_1 = a))).map baseOf
      = (l.filter (fun r => decide (r.athlete_id_1 = a))).map baseOf := by
  intro k l
  induction l generalizing k with
  | nil => rfl
  | cons r rs ih =>
    simp only [mapWithIndex, List.filter_cons, athlete_assignRow]
    by_cases h : r.athlete_id_1 = a
    · simp [h, ih, baseOf_assignRow]
    · simp [h, ih]

theorem priors_out_map_baseOf (df : List Row) (i : Nat) (a : Int) :
    (priorsOfSameEntity (update_features df) i a).map baseOf
      = (priorsOfSameEntity (sortStore df) i a).map baseOf := by
  rw [priorsOfSameEntity, priorsOfSameEntity, update_features, mapWithIndex_take,
    mapWithIndex_filter_athlete_map_baseOf]

theorem priorStats_eq_map (s : List Row) (i : Nat) (a : Int) (g : Obs → ℚ)
    (f : Row → ℚ) (hf : ∀ r : Row, f r = g (baseOf r)) :
    priorStats s i a f = ((priorsOfSameEntity s i a).map baseOf).map g := by
  rw [priorStats, List.map_map]
  exact List.map_congr_left (fun r _ => hf r)

theorem rollMean_nil (w : Nat) : rollMean w [] = none := by
  simp [rollMean]

theorem rollMean_isSome (w : Nat) (p : List ℚ) (h : p ≠ []) :
    (rollMean w p).isSome = true := by
  simp [rollMean, h]

theorem rollMean_singleton (w : Nat) (hw : 1 ≤ w) (x : ℚ) :
    rollMean w [x] = some x := by
  rw [rollMean, if_neg (by simp)]
  have h0 : ([x] : List ℚ).length - w = 0 := by
    simp only [List.length_singleton]
    omega
  rw [h0]
  simp

theorem sameFeatures_assignRow {s₁ s₂ : List Row} {i₁ i₂ : Nat} {r₁ r₂ : Row} {a : Int}
    (ha₁ : r₁.athlete_id_1 = a) (ha₂ : r₂.athlete_id_1 = a)
    (hpts : priorStats s₁ i₁ a Row.points = priorStats s₂ i₂ a Row.points)
    (hreb : priorStats s₁ i₁ a Row.rebounds = priorStats s₂ i₂ a Row.rebounds)
    (hast : priorStats s₁ i₁ a Row.assists = priorStats s₂ i₂ a Row.assists) :
    sameFeatures (assignRow s₁ i₁ r₁) (assignRow s₂ i₂ r₂) := by
  unfold sameFeatures
  refine ⟨?_, ?_, ?_, ?_, ?_, ?_, ?_, ?_, ?_⟩ <;>
    simp only [assignRow, ha₁, ha₂, hpts, hreb, hast]

/-- Claim C1: causality of the rolling features. The feature values of an
output row are a function of the observations of the same entity strictly
before its position in the sorted store alone: whenever two runs agree on
that strict same-entity prefix (as base observations), the produced feature
values agree, whatever the row's own statistics and whatever later rows
exist. -/
theorem C1_feature_causality (df₁ df₂ : List Row) (i₁ i₂ : Nat) (a : Int)
    (h₁ : i₁ < (update_features df₁).length)
    (h₂ : i₂ < (update_features df₂).length)
    (ha₁ : ((update_features df₁).get ⟨i₁, h₁⟩).athlete_id_1 = a)
    (ha₂ : ((update_features df₂).get ⟨i₂, h₂⟩).athlete_id_1 = a)
    (hp : (priorsOfSameEntity (sortStore df₁) i₁ a).map baseOf
        = (priorsOfSameEntity (sortStore df₂) i₂ a).map baseOf) :
    sameFeatures ((update_features df₁).get ⟨i₁, h₁⟩)
      ((update_features df₂).get ⟨i₂, h₂⟩) := by
  have h₁s : i₁ < (sortStore df₁).length := by
    rw [← update_features_length]; exact h₁
  have h₂s : i₂ < (sortStore df₂).length := by
    rw [← update_features_length]; exact h₂
  rw [update_features_get df₁ i₁ h₁s h₁] at ha₁ ⊢
  rw [update_features_get df₂ i₂ h₂s h₂] at ha₂ ⊢
  rw [athlete_assignRow] at ha₁ ha₂
  have hpts : priorStats (sortStore df₁) i₁ a Row.points
      = priorStats (sortStore df₂) i₂ a Row.points := by
    rw [priorStats_eq_map _ _ _ Obs.points Row.points (fun x => rfl),
      priorStats_eq_map _ _ _ Obs.points Row.points (fun x => rfl), hp]
  have hreb : priorStats (sortStore df₁) i₁ a Row.rebounds
      = priorStats (sortStore df₂) i₂ a Row.rebounds := by
    rw [priorStats_eq_map _ _ _ Obs.rebounds Row.rebounds (fun x => rfl),
      priorStats_eq_map _ _ _ Obs.rebounds Row.rebounds (fun x => rfl), hp]
  have hast : priorStats (sortStore df₁) i₁ a Row.assists
      = priorStats (sortStore df₂) i₂ a Row.assists := by
    rw [priorStats_eq_map _ _ _ Obs.assists Row.assists (fun x => rfl),
      priorStats_eq_map _ _ _ Obs.assists Row.assists (fun x => rfl), hp]
  exact sameFeatures_assignRow ha₁ ha₂ hpts hreb hast

theorem allFeaturesNone_assignRow {s : List Row} {i : Nat} {r : Row} {a : Int}
    (ha : r.athlete_id_1 = a)
    (h : (priorsOfSameEntity s i a).map baseOf = []) :
    allFeaturesNone (assignRow s i r) := by
  have h0 : priorsOfSameEntity s i a = [] := List.map_eq_nil_iff.mp h
  have hp : ∀ f : Row → ℚ, priorStats s i a f = [] := by
    intro f
    rw [priorStats, h0]
    rfl
  unfold allFeaturesNone
  refine ⟨?_, ?_, ?_, ?_, ?_, ?_, ?_, ?_, ?_⟩ <;>
    simp only [assignRow, ha, hp, rollMean_nil]

theorem allFeaturesSome_assignRow {s : List Row} {i : Nat} {r : Row} {a : Int}
    (ha : r.athlete_id_1 = a) (h : priorsOfSameEntity s i a ≠ []) :
    allFeaturesSome (assignRow s i r) := by
  have hp : ∀ f : Row → ℚ, priorStats s i a f ≠ [] := by
    intro f
    simp [priorStats, List.map_eq_nil_iff, h]
  unfold allFeaturesSome
  refine ⟨?_, ?_, ?_, ?_, ?_, ?_, ?_, ?_, ?_⟩ <;>
    (simp only [assignRow, ha]; exact rollMean_isSome _ _ (hp _))

theorem featuresAreStatsOf_assignRow {s : List Row} {i : Nat} {r p0 : Row} {a : Int}
    (ha : r.athlete_id_1 = a)
    (hb : (priorsOfSameEntity s i a).map baseOf = [baseOf p0]) :
    featuresAreStatsOf (assignRow s i r) p0 := by
  have hsing : ∀ (g : Obs → ℚ) (f : Row → ℚ), (∀ x : Row, f x = g (baseOf x)) →
      priorStats s i a f = [g (baseOf p0)] := by
    intro g f hf
    rw [priorStats_eq_map s i a g f hf, hb]
    rfl
  unfold featuresAreStatsOf
  refine ⟨?_, ?_, ?_, ?_, ?_, ?_, ?_, ?_, ?_⟩
  · simp only [assignRow, ha]
    rw [hsing Obs.points Row.points (fun x => rfl)]
    exact rollMean_singleton 3 (by omega) _
  · simp only [assignRow, ha]
    rw [hsing Obs.points Row.points (fun x => rfl)]
    exact rollMean_singleton 5 (by omega) _
  · simp only [assignRow, ha]
    rw [hsing Obs.points Row.points (fun x => rfl)]
    exact rollMean_singleton 10 (by omega) _
  · simp only [assignRow, ha]
    rw [hsing Obs.rebounds Row.rebounds (fun x => rfl)]
    exact rollMean_singleton 3 (by omega) _
  · simp only [assignRow, ha]
    rw [hsing Obs.rebounds Row.rebounds (fun x => rfl)]
    exact rollMean_singleton 5 (by omega) _
  · simp only [assignRow, ha]
    rw [hsing Obs.rebounds Row.rebounds (fun x => rfl)]
    exact rollMean_singleton 10 (by omega) _
  · simp only [assignRow, ha]
    rw [hsing Obs.assists Row.assists (fun x => rfl)]
    exact rollMean_singleton 3 (by omega) _
  · simp only [assignRow, ha]
    rw [hsing Obs.assists Row.assists (fun x => rfl)]
    exact rollMean_singleton 5 (by omega) _
  · simp only [assignRow, ha]
    rw [hsing Obs.assists Row.assists (fun x => rfl)]
    exact rollMean_singleton 10 (by omega) _

/-- Claim C4: a row of the feature-engine output has all nine rolling
features undefined exactly when it is the entity's earliest observation
(no prior same-entity row), and defined on every later observation; when
exactly one prior observation exists (the entity's second row), every
`avg_<stat>_last_<window>` equals that first observation's raw statistic. -/
theorem C4_features_defined_iff_prior (df : List Row) (i : Nat) (a : Int)
    (hi : i < (update_features df).length)
    (ha : ((update_features df).get ⟨i, hi⟩).athlete_id_1 = a) :
    (priorsOfSameEntity (update_features df) i a = [] →
        allFeaturesNone ((update_features df).get ⟨i, hi⟩)) ∧
    (priorsOfSameEntity (update_features df) i a ≠ [] →
        allFeaturesSome ((update_features df).get ⟨i, hi⟩)) ∧
    (∀ p0 : Row, priorsOfSameEntity (update_features df) i a = [p0] →
        featuresAreStatsOf ((update_features df).get ⟨i, hi⟩) p0) := by
  have his : i < (sortStore df).length := by
    rw [← update_features_length]; exact hi
  have hbase := priors_out_map_baseOf df i a
  rw [update_features_get df i his hi] at ha ⊢
  rw [athlete_assignRow] at ha
  refine ⟨?_, ?_, ?_⟩
  · intro h0
    apply allFeaturesNone_assignRow ha
    rw [← hbase, h0]
    rfl
  · intro hne
    apply allFeaturesSome_assignRow ha
    intro h0
    apply hne
    have hmap : (priorsOfSameEntity (update_features df) i a).map baseOf = [] := by
      rw [hbase, h0]
      rfl
    exact List.map_eq_nil_iff.mp hmap
  · intro p0 hp0
    apply featuresAreStatsOf_assignRow ha
    rw [← hbase, hp0]
    rfl


/-- Witness for C1 at concrete stores: two stores agreeing on entity 618's
history before position 1 but with different current and later rows get
identical features at position 1. -/
theorem C1_feature_causality_witness :
    sameFeatures ((update_features W1).get ⟨1, by decide⟩)
      ((update_features W2).get ⟨1, by decide⟩) :=
  C1_feature_causality W1 W2 1 1 618 (by decide) (by decide) (by decide)
    (by decide) (by decide)

/-- Witness for C4 at a concrete store: in the unsorted two-row store `W4`,
the sorted position 1 is entity 618's second observation, and each of its
features equals the first observation's raw statistic. -/
theorem C4_features_defined_iff_prior_witness :
    featuresAreStatsOf ((update_features W4).get ⟨1, by decide⟩) wObs1.toRow :=
  (C4_features_defined_iff_prior W4 1 618 (by decide) (by decide)).2.2
    wObs1.toRow (by decide)

/-! ## Helper lemmas: the parser -/

theorem parseAthlete_isOk (gid : Option String) (yr : Option Int)
    (gdate : Option String) (a : Athlete) :
    isOkE (parseAthlete gid yr gdate a) = athleteOk a := by
  cases a with
  | mk id stats =>
    cases stats with
    | none => rfl
    | some l =>
      cases l with
      | nil => rfl
      | cons b bs =>
        cases hb : b.stats with
        | nil => simp [parseAthlete, athleteOk, hb, isOkE]
        | cons s0 t0 =>
          cases t0 with
          | nil => simp [parseAthlete, athleteOk, hb, isOkE]
          | cons s1 t1 =>
            cases t1 with
            | nil => simp [parseAthlete, athleteOk, hb, isOkE]
            | cons s2 t2 =>
              cases id with
              | none => simp [parseAthlete, athleteOk, hb, isOkE]
              | some aid =>
                cases s0 with
                | none => simp [parseAthlete, athleteOk, hb, isOkE]
                | some p =>
                  cases s1 with
                  | none => simp [parseAthlete, athleteOk, hb, isOkE]
                  | some rb =>
                    cases s2 with
                    | none => simp [parseAthlete, athleteOk, hb, isOkE]
                    | some asst => simp [parseAthlete, athleteOk, hb, isOkE]

theorem parseRoster_isOk (gid : Option String) (yr : Option Int)
    (gdate : Option String) (l : List Athlete) :
    isOkE (parseRoster gid yr gdate l) = l.all athleteOk := by
  induction l with
  | nil => rfl
  | cons a rest ih =>
    rw [List.all_cons, ← parseAthlete_isOk gid yr gdate a, ← ih]
    cases h : parseAthlete gid yr gdate a with
    | error e => simp [parseRoster, h, isOkE, Bind.bind, Except.bind]
    | ok v =>
      cases h2 : parseRoster gid yr gdate rest with
      | error e => simp [parseRoster, h, h2, isOkE, Bind.bind, Except.bind, Functor.map, Except.map, Pure.pure, Except.pure]
      | ok w => simp [parseRoster, h, h2, isOkE, Bind.bind, Except.bind, Functor.map, Except.map, Pure.pure, Except.pure]

theorem parseCompetitors_isOk (gid : Option String) (yr : Option Int)
    (gdate : Option String) (l : List Competitor) :
    isOkE (parseCompetitors gid yr gdate l) = l.all competitorOk := by
  induction l with
  | nil => rfl
  | cons c rest ih =>
    rw [List.all_cons]
    have hc : competitorOk c = isOkE (parseRoster gid yr gdate c.roster) :=
      (parseRoster_isOk gid yr gdate c.roster).symm
    rw [hc, ← ih]
    cases h : parseRoster gid yr gdate c.roster with
    | error e => simp [parseCompetitors, h, isOkE, Bind.bind, Except.bind]
    | ok v =>
      cases h2 : parseCompetitors gid yr gdate rest with
      | error e => simp [parseCompetitors, h, h2, isOkE, Bind.bind, Except.bind, Functor.map, Except.map, Pure.pure, Except.pure]
      | ok w => simp [parseCompetitors, h, h2, isOkE, Bind.bind, Except.bind, Functor.map, Except.map, Pure.pure, Except.pure]

theorem parseGame_isOk (yr : Option Int) (g : Game) :
    isOkE (parseGame yr g) = gameOk g := by
  cases g with
  | mk gid comps =>
    cases comps with
    | none => rfl
    | some l =>
      cases l with
      | nil => rfl
      | cons c cs =>
        simp only [parseGame, gameOk]
        exact parseCompetitors_isOk gid yr c.date c.competitors

theorem parseGames_isOk (yr : Option Int) (l : List Game) :
    isOkE (parseGames yr l) = l.all gameOk := by
  induction l with
  | nil => rfl
  | cons g rest ih =>
    rw [List.all_cons, ← parseGame_isOk yr g, ← ih]
    cases h : parseGame yr g with
    | error e => simp [parseGames, h, isOkE, Bind.bind, Except.bind]
    | ok v =>
      cases h2 : parseGames yr rest with
      | error e => simp [parseGames, h, h2, isOkE, Bind.bind, Except.bind, Functor.map, Except.map, Pure.pure, Except.pure]
      | ok w => simp [parseGames, h, h2, isOkE, Bind.bind, Except.bind, Functor.map, Except.map, Pure.pure, Except.pure]


/-- Claim C7 counterexample: a per-entity record with the three core
statistic fields present and resolvable but a missing athlete id makes
`parse_espn_data` raise (abort the whole parse) instead of skipping the
pair, contradicting parser totality / skip-not-raise. -/
theorem C7_parser_counterexample :
    (statsOf c7BadAthlete).length = 3 ∧
    parse_espn_data c7BadPayload = Except.error PyError.typeError :=
  ⟨rfl, rfl⟩

/-- Claim C7 (amended): an empty payload parses to zero observations without
error; the parse succeeds exactly when every reached athlete record is
traversable (no present-but-empty `competitions`/`statistics` list, and
every record with stat arity at least 3 has a convertible id and three
numeric leading stats); and a traversable athlete record emits exactly one
observation when its stats arity is at least 3 and none otherwise (the
silent skip) — but a malformed record with arity at least 3 aborts the whole
parse rather than being skipped. -/
theorem C7_parser_amended :
    (∀ raw : RawPayload, raw.events = [] → parse_espn_data raw = Except.ok []) ∧
    (∀ raw : RawPayload, isOkE (parse_espn_data raw) = parseOkPayload raw) ∧
    (∀ (gid : Option String) (yr : Option Int) (gdate : Option String) (a : Athlete),
      athleteOk a = true →
      (parseAthlete gid yr gdate a).toOption.map List.length
        = some (if 3 ≤ (statsOf a).length then 1 else 0)) := by
  refine ⟨?_, ?_, ?_⟩
  · intro raw h
    rw [parse_espn_data, h]
    rfl
  · intro raw
    exact parseGames_isOk raw.season raw.events
  · intro gid yr gdate a hok
    cases a with
    | mk id stats =>
      cases stats with
      | none => rfl
      | some l =>
        cases l with
        | nil => simp [athleteOk] at hok
        | cons b bs =>
          cases hb : b.stats with
          | nil => simp [parseAthlete, statsOf, hb, Except.toOption]
          | cons s0 t0 =>
            cases t0 with
            | nil => simp [parseAthlete, statsOf, hb, Except.toOption]
            | cons s1 t1 =>
              cases t1 with
              | nil => simp [parseAthlete, statsOf, hb, Except.toOption]
              | cons s2 t2 =>
                simp only [athleteOk, hb, Bool.and_eq_true, Option.isSome_iff_exists]
                  at hok
                obtain ⟨⟨⟨⟨aid, hid⟩, ⟨p, hp⟩⟩, ⟨rb, hrb⟩⟩, ⟨asst, hasst⟩⟩ := hok
                subst hid hp hrb hasst
                simp [parseAthlete, statsOf, hb, Except.toOption]


/-- Witness for the amended C7: the empty payload parses to `ok []`, and a
well-formed athlete with four stats entries emits exactly one observation. -/
theorem C7_parser_amended_witness :
    parse_espn_data ⟨[], none⟩ = Except.ok [] ∧
    (parseAthlete none none none w7Athlete).toOption.map List.length
      = some (if 3 ≤ (statsOf w7Athlete).length then 1 else 0) :=
  ⟨C7_parser_amended.1 ⟨[], none⟩ rfl,
   C7_parser_amended.2.2 none none none w7Athlete rfl⟩

/-! ## Pipeline claims: commit filter, write gating, exit codes -/


/-- Claim C3 counterexample: a row with every required feature column
non-null but a null `season` is removed by `dropna`, so the commit step does
not keep every row whose required features are all non-null (it does not
drop exactly the feature-null rows). -/
theorem C3_null_drop_counterexample :
    allFeaturesSome c3Row ∧ dropna [c3Row] = [] := by
  constructor
  · exact ⟨rfl, rfl, rfl, rfl, rfl, rfl, rfl, rfl, rfl⟩
  · rfl

/-- Claim C3 (amended): the commit step removes exactly the rows with a null
in any column — a required feature column or one of `game_id`, `season`,
`game_date` — so every committed row has every required feature non-null,
but a row with complete features and a null base column is dropped too. -/
theorem C3_null_drop_amended (df : List Row) (r : Row) :
    r ∈ dropna df ↔
      (r ∈ df ∧ r.game_id.isSome = true ∧ r.season.isSome = true ∧
        r.game_date.isSome = true ∧ allFeaturesSome r) := by
  rw [dropna, List.mem_filter]
  unfold allFeaturesSome
  simp only [rowComplete, Bool.and_eq_true, and_assoc]

/-- Claim C8: no write before commit. When the fetch fails, or the payload
has no events, or parsing yields no observations, the run performs no write
and leaves the committed store untouched; moreover in every run, if the
write did not happen the store is exactly the initial one (the commit write
is the only mutation of durable state). -/
theorem C8_no_write_before_commit (store : Option (List Row))
    (fetched : Option RawPayload) :
    ((fetched = none ∨
        (∃ raw, fetched = some raw ∧
          (raw.events = [] ∨ parse_espn_data raw = Except.ok []))) →
      (runPipeline store fetched).wrote = false ∧
      (runPipeline store fetched).finalStore = store) ∧
    ((runPipeline store fetched).wrote = false →
      (runPipeline store fetched).finalStore = store) := by
  cases store with
  | none => exact ⟨fun _ => ⟨rfl, rfl⟩, fun _ => rfl⟩
  | some hist =>
    cases fetched with
    | none => exact ⟨fun _ => ⟨rfl, rfl⟩, fun _ => rfl⟩
    | some raw =>
      by_cases he : raw.events.isEmpty = true
      · have hrun : runPipeline (some hist) (some raw) = ⟨some hist, false, 0⟩ := by
          simp [runPipeline, he]
        rw [hrun]
        exact ⟨fun _ => ⟨rfl, rfl⟩, fun _ => rfl⟩
      · cases hp : parse_espn_data raw with
        | error e =>
          have hrun : runPipeline (some hist) (some raw) = ⟨some hist, false, 1⟩ := by
            simp [runPipeline, he, hp]
          rw [hrun]
          exact ⟨fun _ => ⟨rfl, rfl⟩, fun _ => rfl⟩
        | ok logs =>
          by_cases hl : logs.isEmpty = true
          · have hrun : runPipeline (some hist) (some raw) = ⟨some hist, false, 0⟩ := by
              simp [runPipeline, he, hp, hl]
            rw [hrun]
            exact ⟨fun _ => ⟨rfl, rfl⟩, fun _ => rfl⟩
          · have hrun : runPipeline (some hist) (some raw)
                = ⟨some (dropna (update_features
                    (merge hist (logs.map Obs.toRow)))), true, 0⟩ := by
              simp [runPipeline, he, hp, hl]
            rw [hrun]
            constructor
            · rintro (hn | ⟨raw2, hr2, hcase⟩)
              · exact absurd hn (by simp)
              · injection hr2 with hh
                subst hh
                rcases hcase with hev | hok
                · rw [hev] at he
                  exact absurd rfl he
                · rw [hp] at hok
                  injection hok with hlogs
                  rw [hlogs] at hl
                  exact absurd rfl hl
            · intro hw
              exact absurd hw (by simp)

/-- Witness for C8: a failed fetch against a two-row store writes nothing
and leaves the store unchanged. -/
theorem C8_no_write_before_commit_witness :
    (runPipeline (some W1) none).wrote = false ∧
    (runPipeline (some W1) none).finalStore = some W1 :=
  (C8_no_write_before_commit (some W1) none).1 (Or.inl rfl)


/-- Claim C9 counterexample: with the store file missing the script prints
and calls `exit()`, exiting with code 0, not non-zero; and a run that
crashes on a malformed payload exits non-zero although that is not a setup
error — so the exit code is neither always nor only non-zero on setup
errors. -/
theorem C9_exit_code_counterexample :
    (runPipeline none none).exitCode = 0 ∧
    (runPipeline (some []) (some c9BadPayload)).exitCode = 1 :=
  ⟨rfl, rfl⟩

/-- Claim C9 (amended): the batch job exits with code zero on every terminal
state — including "no new data" and including the missing-store setup error,
which only prints a message — and exits non-zero exactly when the store
loads, the fetch returns a payload with events, and `parse_espn_data`
raises an uncaught exception. -/
theorem C9_exit_code_amended (store : Option (List Row))
    (fetched : Option RawPayload) :
    (runPipeline store fetched).exitCode ≠ 0 ↔
      (∃ hist raw, store = some hist ∧ fetched = some raw ∧
        raw.events ≠ [] ∧ isOkE (parse_espn_data raw) = false) := by
  cases store with
  | none => simp [runPipeline]
  | some hist =>
    cases fetched with
    | none => simp [runPipeline]
    | some raw =>
      by_cases he : raw.events.isEmpty = true
      · have hev : raw.events = [] := List.isEmpty_iff.mp he
        simp [runPipeline, he, hev]
      · have hne : raw.events ≠ [] := by
          intro h0
          rw [h0] at he
          exact absurd rfl he
        cases hp : parse_espn_data raw with
        | error e => simp [runPipeline, he, hp, isOkE, hne]
        | ok logs =>
          by_cases hl : logs.isEmpty = true
          · simp [runPipeline, he, hp, hl, isOkE]
          · simp [runPipeline, he, hp, hl, isOkE]

end WnbaUpdate
